/-
Verification of the LSTM cell and batch-norm helper in tf_lstm.py.

The source builds a TensorFlow graph over rank-2 tensors (batch x features).
We shallowly embed the tensor arithmetic over ℚ: a matrix is a pair of
dimensions together with a total entry function, and the framework's
nonlinear primitives (sigmoid, the cell activation, the reciprocal square
root used inside batch normalization) are abstract parameters, since the
source delegates them to the host framework.
-/
import Mathlib

namespace TFLSTM

/-- A rank-2 tensor: `rows` x `cols`, entries given by a total function. -/
structure Mat where
  rows : ℕ
  cols : ℕ
  entry : ℕ → ℕ → ℚ

/-- A rank-1 tensor (per-feature vector). -/
structure Vec where
  len : ℕ
  entry : ℕ → ℚ

theorem Vec.eq_of_entries {a b : Vec} (hl : a.len = b.len)
    (he : ∀ j, a.entry j = b.entry j) : a = b := by
  cases a; cases b
  simp only [Vec.mk.injEq]
  exact ⟨hl, funext he⟩

/-- Elementwise map (used for `sigmoid`, the activation, clipping). -/
def Mat.emap (f : ℚ → ℚ) (A : Mat) : Mat :=
  ⟨A.rows, A.cols, fun i j => f (A.entry i j)⟩

/-- Elementwise addition (the framework requires equal shapes; shape taken
from the left operand). -/
def Mat.add (A B : Mat) : Mat :=
  ⟨A.rows, A.cols, fun i j => A.entry i j + B.entry i j⟩

/-- Elementwise (Hadamard) product, as in `sigmoid(f) * c_prev`. -/
def Mat.hmul (A B : Mat) : Mat :=
  ⟨A.rows, A.cols, fun i j => A.entry i j * B.entry i j⟩

/-- Add a scalar to every entry, as in `f + self._forget_bias`. -/
def Mat.addScalar (A : Mat) (s : ℚ) : Mat :=
  ⟨A.rows, A.cols, fun i j => A.entry i j + s⟩

/-- Broadcast a feature vector over the batch dimension and multiply
elementwise, as in `w_f_diag * c_prev`. -/
def Mat.rowMul (v : Vec) (A : Mat) : Mat :=
  ⟨A.rows, A.cols, fun i j => v.entry j * A.entry i j⟩

/-- `math_ops.matmul`. -/
def Mat.matmul (A B : Mat) : Mat :=
  ⟨A.rows, B.cols, fun i j => ∑ k ∈ Finset.range A.cols, A.entry i k * B.entry k j⟩

/-- `array_ops.concat(1, [A, B])`: concatenation along the feature axis. -/
def Mat.concatCols (A B : Mat) : Mat :=
  ⟨A.rows, A.cols + B.cols,
   fun i j => if j < A.cols then A.entry i j else B.entry i (j - A.cols)⟩

/-- `nn_ops.bias_add`. -/
def Mat.biasAdd (A : Mat) (b : Vec) : Mat :=
  ⟨A.rows, A.cols, fun i j => A.entry i j + b.entry j⟩

/-- Contiguous column slice of width `w` starting at column `start`
(the pieces produced by `array_ops.split`). -/
def Mat.sliceCols (A : Mat) (start w : ℕ) : Mat :=
  ⟨A.rows, w, fun i j => A.entry i (start + j)⟩

/-- `array_ops.split(1, 4, lstm_matrix)`: four equal-width column slices. -/
def split4 (M : Mat) : Mat × Mat × Mat × Mat :=
  let w := M.cols / 4
  (M.sliceCols 0 w, M.sliceCols w w, M.sliceCols (2 * w) w, M.sliceCols (3 * w) w)

def Vec.scale (a : ℚ) (v : Vec) : Vec := ⟨v.len, fun j => a * v.entry j⟩

def Vec.add (v w : Vec) : Vec := ⟨v.len, fun j => v.entry j + w.entry j⟩

/-- Per-feature batch mean of a rank-2 tensor: `moments(x, axes)` with
`axes = range(len(shape)-1)`, i.e. the reduction over the batch axis. -/
def batchMean (x : Mat) : Vec :=
  ⟨x.cols, fun j => (∑ i ∈ Finset.range x.rows, x.entry i j) / (x.rows : ℚ)⟩

/-- Per-feature batch variance (mean of squared deviations). -/
def batchVar (x : Mat) : Vec :=
  ⟨x.cols, fun j =>
    (∑ i ∈ Finset.range x.rows, (x.entry i j - (batchMean x).entry j) ^ 2) / (x.rows : ℚ)⟩

/-- `tf.nn.moments(x, axes)` for the rank-2 tensors this code applies it to. -/
def moments (x : Mat) : Vec × Vec := (batchMean x, batchVar x)

/-- The values held by the non-trainable variables `scope+"_mean"`,
`scope+"_var"`, `scope+"_counter"` of one `batch_norm` call site.
Initializers in the source: mean 0, var 1, counter 0.  The variable
`scope+"_zero_cnt"` is initialized to 0 and never written, so the guard
`math_ops.equal(counter, zero_cnt)` is `counter = 0` here. -/
structure BNState where
  mean : Vec
  var : Vec
  counter : ℤ

/-- The first `cond` of `batch_norm` (line 80): when the stored counter
equals the zero sentinel, rebind (mean, var) to the batch statistics. -/
def bnSeed (x : Mat) (st : BNState) : Vec × Vec :=
  if st.counter = 0 then (batchMean x, batchVar x) else (st.mean, st.var)

/-- The second `cond` of `batch_norm` (lines 84-87): in deterministic mode
keep (mean, var, counter); otherwise produce the blended statistics
`(1-alpha)*batch + alpha*running` and the incremented counter.  These are
fresh tensors bound to the local Python names: the source contains no
assignment op, so they are never written back to the variables. -/
def bnUsed (x : Mat) (deterministic : Bool) (alpha : ℚ) (st : BNState) :
    Vec × Vec × ℤ :=
  let s := bnSeed x st
  if deterministic then (s.1, s.2, st.counter)
  else (Vec.add (Vec.scale (1 - alpha) (batchMean x)) (Vec.scale alpha s.1),
        Vec.add (Vec.scale (1 - alpha) (batchVar x)) (Vec.scale alpha s.2),
        st.counter + 1)

/-- `tf.nn.batch_normalization(x, mean, var, beta, gamma, eps)` =
`(x - mean) * rsqrt(var + eps) * gamma + beta`, with the framework's
reciprocal square root abstracted as `rsqrt`. -/
def batch_normalization (x : Mat) (mean var beta gamma : Vec) (eps : ℚ)
    (rsqrt : ℚ → ℚ) : Mat :=
  ⟨x.rows, x.cols, fun i j =>
    (x.entry i j - mean.entry j) * rsqrt (var.entry j + eps) * gamma.entry j
      + beta.entry j⟩

/-- `batch_norm(x, deterministic, alpha, shift)` from tf_lstm.py lines 41-89.
`beta`, `gamma` and `st` are the values held by the call site's variables
(`shift` only toggles the trainability of `beta`, not any value computed
here).  Returns the normalized tensor together with the variable state
after the call: the source never assigns to `mean`, `var` or `counter`
(the `cond` results are local tensors), so that state is `st` unchanged. -/
def batch_norm (x : Mat) (deterministic : Bool) (alpha : ℚ) (shift : Bool)
    (beta gamma : Vec) (st : BNState) (rsqrt : ℚ → ℚ) : Mat × BNState :=
  let u := bnUsed x deterministic alpha st
  (batch_normalization x u.1 u.2.1 beta gamma (1 / 100000000) rsqrt, st)

/-- The constructor configuration of `LSTMCell.__init__` that influences the
step computation (`initializer` and the shard counts only affect how the
variable store materializes the weights, not the arithmetic; `deterministic`
is the tensor stored as `self._deterministic`, modelled as the Bool it
carries at run time). -/
structure LSTMConfig where
  num_units : ℕ
  use_peepholes : Bool
  cell_clip : Option ℚ
  num_proj : Option ℕ
  forget_bias : ℚ
  bn : Bool
  return_gate : Bool
  deterministic : Bool

/-- The framework's scalar primitives the cell applies elementwise:
`sigmoid`, the configured activation (default `tanh`), and the reciprocal
square root inside `batch_normalization`. -/
structure Prims where
  sigmoid : ℚ → ℚ
  act : ℚ → ℚ
  rsqrt : ℚ → ℚ

/-- Values of one `batch_norm` call site's affine parameters and running
statistics, as held by the variable store. -/
structure BNVars where
  beta : Vec
  gamma : Vec
  st : BNState

/-- Values of the variables `LSTMCell.__call__` reads from the variable
store: `W` (plain path) or `W_i`/`W_r` (batch-norm path), the bias `B`, the
peephole diagonals, the projection matrix `W_P`, and the statistics of the
three `batch_norm` call sites `bn_i`, `bn_r`, `bn_m`. -/
structure LSTMWeights where
  W : Mat
  W_i : Mat
  W_r : Mat
  B : Vec
  w_f_diag : Vec
  w_i_diag : Vec
  w_o_diag : Vec
  W_P : Mat
  bn_i : BNVars
  bn_r : BNVars
  bn_m : BNVars

/-- `lstm_matrix` (lines 213-222): the concatenated gate pre-activations.
With `bn`: `bias_add(batch_norm(inputs @ W_i) + batch_norm(m_prev @ W_r), B)`,
both normalizations with `shift=False`.  Without:
`bias_add(concat(1, [inputs, m_prev]) @ W, B)`. -/
def lstm_matrix (cfg : LSTMConfig) (p : Prims) (w : LSTMWeights)
    (inputs m_prev : Mat) : Mat :=
  if cfg.bn then
    Mat.biasAdd
      (Mat.add
        (batch_norm (Mat.matmul inputs w.W_i) cfg.deterministic (9/10) false
          w.bn_i.beta w.bn_i.gamma w.bn_i.st p.rsqrt).1
        (batch_norm (Mat.matmul m_prev w.W_r) cfg.deterministic (9/10) false
          w.bn_r.beta w.bn_r.gamma w.bn_r.st p.rsqrt).1)
      w.B
  else
    Mat.biasAdd (Mat.matmul (Mat.concatCols inputs m_prev) w.W) w.B

/-- New cell state before clipping (lines 235-240):
peepholes add `w_f_diag * c_prev` / `w_i_diag * c_prev` inside the sigmoids. -/
def new_c_raw (cfg : LSTMConfig) (p : Prims) (w : LSTMWeights)
    (inputs c_prev m_prev : Mat) : Mat :=
  let g := split4 (lstm_matrix cfg p w inputs m_prev)
  if cfg.use_peepholes then
    Mat.add
      (Mat.hmul
        (Mat.emap p.sigmoid
          (Mat.add (Mat.addScalar g.2.2.1 cfg.forget_bias)
            (Mat.rowMul w.w_f_diag c_prev)))
        c_prev)
      (Mat.hmul
        (Mat.emap p.sigmoid (Mat.add g.1 (Mat.rowMul w.w_i_diag c_prev)))
        (Mat.emap p.act g.2.1))
  else
    Mat.add
      (Mat.hmul (Mat.emap p.sigmoid (Mat.addScalar g.2.2.1 cfg.forget_bias))
        c_prev)
      (Mat.hmul (Mat.emap p.sigmoid g.1) (Mat.emap p.act g.2.1))

/-- `clip_ops.clip_by_value(c, -K, K)` when a clip bound is configured
(lines 242-245); `clip_by_value(t, lo, hi) = min(max(t, lo), hi)`. -/
def applyClip (clip : Option ℚ) (c : Mat) : Mat :=
  match clip with
  | none => c
  | some K => Mat.emap (fun x => min (max x (-K)) K) c

/-- The cell state stored into `new_state` (after optional clipping). -/
def new_c (cfg : LSTMConfig) (p : Prims) (w : LSTMWeights)
    (inputs c_prev m_prev : Mat) : Mat :=
  applyClip cfg.cell_clip (new_c_raw cfg p w inputs c_prev m_prev)

/-- New output before projection (lines 247-258): `sigmoid(o [+ w_o_diag*c])
* activation(c)`, where with `bn` the activation is applied to
`batch_norm(c)` (call site `bn_m`, default `alpha=0.9`, `shift=True`) while
`c` itself stays un-normalized. -/
def new_m_raw (cfg : LSTMConfig) (p : Prims) (w : LSTMWeights)
    (inputs c_prev m_prev : Mat) : Mat :=
  let g := split4 (lstm_matrix cfg p w inputs m_prev)
  let c := new_c cfg p w inputs c_prev m_prev
  let actC :=
    if cfg.bn then
      Mat.emap p.act
        (batch_norm c cfg.deterministic (9/10) true
          w.bn_m.beta w.bn_m.gamma w.bn_m.st p.rsqrt).1
    else Mat.emap p.act c
  if cfg.use_peepholes then
    Mat.hmul (Mat.emap p.sigmoid (Mat.add g.2.2.2 (Mat.rowMul w.w_o_diag c)))
      actC
  else
    Mat.hmul (Mat.emap p.sigmoid g.2.2.2) actC

/-- The returned output `m` (lines 260-265): projected by `W_P` exactly when
`num_proj` is set. -/
def new_m (cfg : LSTMConfig) (p : Prims) (w : LSTMWeights)
    (inputs c_prev m_prev : Mat) : Mat :=
  match cfg.num_proj with
  | none => new_m_raw cfg p w inputs c_prev m_prev
  | some _ => Mat.matmul (new_m_raw cfg p w inputs c_prev m_prev) w.W_P

/-- What `LSTMCell.__call__` returns (lines 267-272): the output `m`, the
state tuple `LSTMStateTuple(c, m)`, and the raw gate slices when
`return_gate` is set. -/
structure StepResult where
  out : Mat
  state_c : Mat
  state_h : Mat
  gates : Option (Mat × Mat × Mat × Mat)

/-- The step computation of `LSTMCell.__call__` after the static-shape
check succeeds. -/
def lstmStep (cfg : LSTMConfig) (p : Prims) (w : LSTMWeights)
    (inputs c_prev m_prev : Mat) : StepResult :=
  { out := new_m cfg p w inputs c_prev m_prev
    state_c := new_c cfg p w inputs c_prev m_prev
    state_h := new_m cfg p w inputs c_prev m_prev
    gates :=
      if cfg.return_gate then some (split4 (lstm_matrix cfg p w inputs m_prev))
      else none }

/-- An input tensor as `__call__` sees it: its run-time value plus the
statically inferred feature width, `inputs.get_shape().with_rank(2)[1]`,
which may be unknown. -/
structure InTensor where
  mat : Mat
  staticLastDim : Option ℕ

/-- Names of the variables one `batch_norm` call site creates, in source
order (lines 48-76). -/
def bnVarNames (scope : String) : List String :=
  [scope ++ "_beta", scope ++ "_gamma", scope ++ "_mean", scope ++ "_var",
   scope ++ "_counter", scope ++ "_zero_cnt"]

/-- Names of the variables `LSTMCell.__call__` creates, in the order the
source creates them (lines 191-263). -/
def lstmVarNames (cfg : LSTMConfig) (scope_name : String) : List String :=
  (if cfg.bn then ["W_i", "W_r", "B"] else ["W", "B"]) ++
  (if cfg.bn then
    bnVarNames (scope_name ++ "bn_i") ++ bnVarNames (scope_name ++ "bn_r")
   else []) ++
  (if cfg.use_peepholes then ["W_F_diag", "W_I_diag", "W_O_diag"] else []) ++
  (if cfg.bn then bnVarNames (scope_name ++ "bn_m") else []) ++
  (if cfg.num_proj.isSome then ["W_P"] else [])

/-- `LSTMCell.__call__` (lines 154-272): first the static-shape check of
lines 184-186, which raises before any variable is created or any op built;
on success, the variables are created and the step computed.  The first
component is the list of variables created by the call. -/
def lstmCall (cfg : LSTMConfig) (p : Prims) (w : LSTMWeights)
    (inputs : InTensor) (c_prev m_prev : Mat) (scope_name : String) :
    List String × Except String StepResult :=
  match inputs.staticLastDim with
  | none => ([], Except.error "Could not infer input size from inputs.get_shape()[-1]")
  | some _ =>
      (lstmVarNames cfg scope_name,
       Except.ok (lstmStep cfg p w inputs.mat c_prev m_prev))

/-! Concrete fixtures used to instantiate the theorems. -/

def vZ (n : ℕ) : Vec := ⟨n, fun _ => 0⟩

def vOne (n : ℕ) : Vec := ⟨n, fun _ => 1⟩

def matZ (r c : ℕ) : Mat := ⟨r, c, fun _ _ => 0⟩

def bnv0 (n : ℕ) : BNVars := ⟨vZ n, ⟨n, fun _ => 1/10⟩, ⟨vZ n, vOne n, 0⟩⟩

def cfg0 : LSTMConfig := ⟨2, false, none, none, 1, false, false, false⟩

def cfgClip : LSTMConfig := ⟨2, false, some 1, none, 1, false, false, false⟩

def cfgProj : LSTMConfig := ⟨2, false, none, some 3, 1, false, false, false⟩

def cfgBn : LSTMConfig := ⟨2, false, none, none, 1, true, false, true⟩

def p0 : Prims := ⟨fun q => q + 1, fun q => 2 * q, fun q => q⟩

def pId : Prims := ⟨fun q => q + 1, fun q => q, fun q => q⟩

def w0 : LSTMWeights :=
  { W := ⟨4, 8, fun i j => (i : ℚ) + j⟩
    W_i := ⟨2, 8, fun i j => (i : ℚ) + j⟩
    W_r := ⟨2, 8, fun i j => (i : ℚ) * j⟩
    B := ⟨8, fun j => (j : ℚ)⟩
    w_f_diag := ⟨2, fun j => (j : ℚ)⟩
    w_i_diag := ⟨2, fun j => (j : ℚ) + 1⟩
    w_o_diag := ⟨2, fun _ => 1⟩
    W_P := ⟨2, 3, fun _ _ => 1⟩
    bn_i := bnv0 8
    bn_r := bnv0 8
    bn_m := bnv0 2 }

def wZ : LSTMWeights :=
  { W := matZ 4 8, W_i := matZ 2 8, W_r := matZ 2 8, B := vZ 8
    w_f_diag := vZ 2, w_i_diag := vZ 2, w_o_diag := vZ 2, W_P := matZ 2 3
    bn_i := bnv0 8, bn_r := bnv0 8, bn_m := bnv0 2 }

def x0 : Mat := ⟨1, 2, fun i j => (i : ℚ) + 2 * j⟩

def cp0 : Mat := ⟨1, 2, fun _ j => (j : ℚ)⟩

def mp0 : Mat := ⟨1, 2, fun _ j => (j : ℚ) + 1⟩

/-! Theorems. -/

/-- C1: the claim says a non-deterministic `batch_norm` call stores the
blended statistics back and increments the stored counter so that a
subsequent call observes them.  The source computes those tensors (the local
`cond` results, here `bnUsed`) but contains no assignment op, so the
variables keep their values: at input x = [[2]] with the initial state
(mean 0, var 1, counter 0), the locally computed counter tensor is 1, yet
after the call the stored state is the initial state unchanged — the stored
counter is still 0, not 1, and the stored mean is still 0. -/
theorem bn_stored_stats_not_updated :
    (bnUsed ⟨1, 1, fun _ _ => 2⟩ false (9/10)
        ⟨⟨1, fun _ => 0⟩, ⟨1, fun _ => 1⟩, 0⟩).2.2 = 1 ∧
    (batch_norm ⟨1, 1, fun _ _ => 2⟩ false (9/10) true
        ⟨1, fun _ => 0⟩ ⟨1, fun _ => 1/10⟩
        ⟨⟨1, fun _ => 0⟩, ⟨1, fun _ => 1⟩, 0⟩ (fun q => q)).2
      = ⟨⟨1, fun _ => 0⟩, ⟨1, fun _ => 1⟩, 0⟩ := by
  exact ⟨rfl, rfl⟩

/-- C2: on a first call (stored counter 0), the mean and variance actually
used for normalization equal the batch mean and batch variance of the
input, for either value of `deterministic` (in training mode the blend
`(1-alpha)*batch + alpha*seeded` collapses to the batch statistic because
the seeding cond already rebound the running values to the batch values). -/
theorem bn_first_call_uses_batch_stats (x : Mat) (deterministic : Bool)
    (alpha : ℚ) (st : BNState) (h0 : st.counter = 0) :
    (bnUsed x deterministic alpha st).1 = batchMean x ∧
    (bnUsed x deterministic alpha st).2.1 = batchVar x := by
  cases deterministic with
  | true => simp [bnUsed, bnSeed, h0]
  | false =>
      simp only [bnUsed, bnSeed, h0, if_pos, Bool.false_eq_true, if_false, if_true]
      refine ⟨Vec.eq_of_entries rfl fun j => ?_, Vec.eq_of_entries rfl fun j => ?_⟩ <;>
        simp [Vec.add, Vec.scale] <;> ring

/-- Witness for C2 at x = [[3], [5]], deterministic = true, counter = 0. -/
theorem bn_first_call_uses_batch_stats_w :
    (bnUsed ⟨2, 1, fun i _ => 3 + 2 * i⟩ true (9/10)
        ⟨⟨1, fun _ => 7⟩, ⟨1, fun _ => 4⟩, 0⟩).1
      = batchMean ⟨2, 1, fun i _ => 3 + 2 * i⟩ ∧
    (bnUsed ⟨2, 1, fun i _ => 3 + 2 * i⟩ true (9/10)
        ⟨⟨1, fun _ => 7⟩, ⟨1, fun _ => 4⟩, 0⟩).2.1
      = batchVar ⟨2, 1, fun i _ => 3 + 2 * i⟩ :=
  bn_first_call_uses_batch_stats _ _ _ _ rfl

/-- C6: two successive `batch_norm` calls in deterministic (evaluation)
mode, the second reading the variable state left by the first, leave the
stored statistics unchanged and produce identical outputs. -/
theorem bn_eval_mode_idempotent (x : Mat) (alpha : ℚ) (shift : Bool)
    (beta gamma : Vec) (st : BNState) (rsqrt : ℚ → ℚ)
    (_h : st.counter ≠ 0) :
    (batch_norm x true alpha shift beta gamma st rsqrt).2 = st ∧
    (batch_norm x true alpha shift beta gamma
        ((batch_norm x true alpha shift beta gamma st rsqrt).2) rsqrt).1
      = (batch_norm x true alpha shift beta gamma st rsqrt).1 :=
  ⟨rfl, rfl⟩

/-- Witness for C6 at x = [[2]], a state with counter 3. -/
theorem bn_eval_mode_idempotent_w :
    (batch_norm ⟨1, 1, fun _ _ => 2⟩ true (9/10) true
        ⟨1, fun _ => 0⟩ ⟨1, fun _ => 1/10⟩
        ⟨⟨1, fun _ => 5⟩, ⟨1, fun _ => 2⟩, 3⟩ (fun q => q)).2
      = ⟨⟨1, fun _ => 5⟩, ⟨1, fun _ => 2⟩, 3⟩ ∧
    (batch_norm ⟨1, 1, fun _ _ => 2⟩ true (9/10) true
        ⟨1, fun _ => 0⟩ ⟨1, fun _ => 1/10⟩
        ((batch_norm ⟨1, 1, fun _ _ => 2⟩ true (9/10) true
            ⟨1, fun _ => 0⟩ ⟨1, fun _ => 1/10⟩
            ⟨⟨1, fun _ => 5⟩, ⟨1, fun _ => 2⟩, 3⟩ (fun q => q)).2)
        (fun q => q)).1
      = (batch_norm ⟨1, 1, fun _ _ => 2⟩ true (9/10) true
          ⟨1, fun _ => 0⟩ ⟨1, fun _ => 1/10⟩
          ⟨⟨1, fun _ => 5⟩, ⟨1, fun _ => 2⟩, 3⟩ (fun q => q)).1 :=
  bn_eval_mode_idempotent _ _ _ _ _ _ _ (by decide)

/-- C10: the first value `__call__` returns is exactly the `h` component of
the returned state tuple — both are the tensor `m` (post-projection when
`num_proj` is set), for every configuration including both `return_gate`
settings. -/
theorem lstm_output_equals_state_h (cfg : LSTMConfig) (p : Prims)
    (w : LSTMWeights) (inputs c_prev m_prev : Mat) :
    (lstmStep cfg p w inputs c_prev m_prev).out
      = (lstmStep cfg p w inputs c_prev m_prev).state_h := rfl

/-- C3: with `bn=False` (and no cell clip, matching the claim's unclipped
formula), the new cell state is
`sigmoid(f + forget_bias) * c_prev + sigmoid(i) * activation(j)` where
`(i, j, f, o)` are the four equal-width slices of
`bias_add(matmul(concat(inputs, m_prev), W), B)`; with peepholes the forget
and input gates additionally receive `w_f_diag * c_prev` and
`w_i_diag * c_prev` inside the sigmoid. -/
theorem lstm_cell_state_formula (cfg : LSTMConfig) (p : Prims)
    (w : LSTMWeights) (inputs c_prev m_prev M : Mat)
    (hbn : cfg.bn = false) (hclip : cfg.cell_clip = none)
    (hM : M = Mat.biasAdd (Mat.matmul (Mat.concatCols inputs m_prev) w.W) w.B) :
    (cfg.use_peepholes = false →
      (lstmStep cfg p w inputs c_prev m_prev).state_c =
        Mat.add
          (Mat.hmul
            (Mat.emap p.sigmoid (Mat.addScalar (split4 M).2.2.1 cfg.forget_bias))
            c_prev)
          (Mat.hmul (Mat.emap p.sigmoid (split4 M).1)
            (Mat.emap p.act (split4 M).2.1))) ∧
    (cfg.use_peepholes = true →
      (lstmStep cfg p w inputs c_prev m_prev).state_c =
        Mat.add
          (Mat.hmul
            (Mat.emap p.sigmoid
              (Mat.add (Mat.addScalar (split4 M).2.2.1 cfg.forget_bias)
                (Mat.rowMul w.w_f_diag c_prev)))
            c_prev)
          (Mat.hmul
            (Mat.emap p.sigmoid
              (Mat.add (split4 M).1 (Mat.rowMul w.w_i_diag c_prev)))
            (Mat.emap p.act (split4 M).2.1))) := by
  subst hM
  constructor <;> intro hp <;>
    simp [lstmStep, new_c, applyClip, hclip, new_c_raw, hp, lstm_matrix, hbn]

/-- Witness for C3 with the plain configuration at concrete inputs. -/
theorem lstm_cell_state_formula_w :
    (lstmStep cfg0 p0 w0 x0 cp0 mp0).state_c =
      Mat.add
        (Mat.hmul
          (Mat.emap p0.sigmoid
            (Mat.addScalar
              (split4 (Mat.biasAdd (Mat.matmul (Mat.concatCols x0 mp0) w0.W) w0.B)).2.2.1
              cfg0.forget_bias))
          cp0)
        (Mat.hmul
          (Mat.emap p0.sigmoid
            (split4 (Mat.biasAdd (Mat.matmul (Mat.concatCols x0 mp0) w0.W) w0.B)).1)
          (Mat.emap p0.act
            (split4 (Mat.biasAdd (Mat.matmul (Mat.concatCols x0 mp0) w0.W) w0.B)).2.1)) :=
  (lstm_cell_state_formula cfg0 p0 w0 x0 cp0 mp0 _ rfl rfl rfl).1 rfl

/-- C9: with `bn=True` (and `num_proj` unset so the output is the raw `m`),
the returned output is `sigmoid(o [+ w_o_diag*c]) *
activation(batch_norm(c))` — it reads the batch-normalized cell state —
while the `c` component of the returned state tuple is the un-normalized
(possibly clipped) cell state `new_c`, which contains no `bn_m`
normalization. -/
theorem lstm_bn_output_asymmetry (cfg : LSTMConfig) (p : Prims)
    (w : LSTMWeights) (inputs c_prev m_prev : Mat)
    (hbn : cfg.bn = true) (hproj : cfg.num_proj = none) :
    (cfg.use_peepholes = false →
      (lstmStep cfg p w inputs c_prev m_prev).out =
        Mat.hmul
          (Mat.emap p.sigmoid (split4 (lstm_matrix cfg p w inputs m_prev)).2.2.2)
          (Mat.emap p.act
            (batch_norm (new_c cfg p w inputs c_prev m_prev) cfg.deterministic
              (9/10) true w.bn_m.beta w.bn_m.gamma w.bn_m.st p.rsqrt).1)) ∧
    (cfg.use_peepholes = true →
      (lstmStep cfg p w inputs c_prev m_prev).out =
        Mat.hmul
          (Mat.emap p.sigmoid
            (Mat.add (split4 (lstm_matrix cfg p w inputs m_prev)).2.2.2
              (Mat.rowMul w.w_o_diag (new_c cfg p w inputs c_prev m_prev))))
          (Mat.emap p.act
            (batch_norm (new_c cfg p w inputs c_prev m_prev) cfg.deterministic
              (9/10) true w.bn_m.beta w.bn_m.gamma w.bn_m.st p.rsqrt).1)) ∧
    (lstmStep cfg p w inputs c_prev m_prev).state_c
      = new_c cfg p w inputs c_prev m_prev := by
  refine ⟨fun hp => ?_, fun hp => ?_, rfl⟩ <;>
    simp [lstmStep, new_m, hproj, new_m_raw, hbn, hp]

/-- Witness for C9 with the batch-norm configuration at concrete inputs. -/
theorem lstm_bn_output_asymmetry_w :
    (lstmStep cfgBn p0 w0 x0 cp0 mp0).out =
      Mat.hmul
        (Mat.emap p0.sigmoid (split4 (lstm_matrix cfgBn p0 w0 x0 mp0)).2.2.2)
        (Mat.emap p0.act
          (batch_norm (new_c cfgBn p0 w0 x0 cp0 mp0) cfgBn.deterministic
            (9/10) true w0.bn_m.beta w0.bn_m.gamma w0.bn_m.st p0.rsqrt).1) :=
  (lstm_bn_output_asymmetry cfgBn p0 w0 x0 cp0 mp0 rfl rfl).1 rfl

/-- C4: when `cell_clip = K` (a nonnegative bound, as the clipping interval
`[-K, K]` presumes), every entry of the `c` component of the returned state
lies in `[-K, K]`, whatever the magnitude of the unclipped value. -/
theorem lstm_cell_clip_bounds (cfg : LSTMConfig) (p : Prims)
    (w : LSTMWeights) (inputs c_prev m_prev : Mat) (K : ℚ)
    (hK : cfg.cell_clip = some K) (hK0 : 0 ≤ K) (i j : ℕ) :
    -K ≤ (lstmStep cfg p w inputs c_prev m_prev).state_c.entry i j ∧
    (lstmStep cfg p w inputs c_prev m_prev).state_c.entry i j ≤ K := by
  have h : (lstmStep cfg p w inputs c_prev m_prev).state_c
      = Mat.emap (fun x => min (max x (-K)) K)
          (new_c_raw cfg p w inputs c_prev m_prev) := by
    simp [lstmStep, new_c, applyClip, hK]
  rw [h]
  simp only [Mat.emap]
  exact ⟨le_min (le_max_right _ _) (neg_le_self hK0), min_le_right _ _⟩

/-- Witness for C4 with clip bound 1 at entry (0, 0). -/
theorem lstm_cell_clip_bounds_w :
    -1 ≤ (lstmStep cfgClip p0 w0 x0 cp0 mp0).state_c.entry 0 0 ∧
    (lstmStep cfgClip p0 w0 x0 cp0 mp0).state_c.entry 0 0 ≤ 1 :=
  lstm_cell_clip_bounds cfgClip p0 w0 x0 cp0 mp0 1 rfl (by norm_num) 0 0

/-- The gate matrix has width `4 * num_units` whenever the weight matrices
have the widths the variable store creates them with. -/
theorem lstm_matrix_cols (cfg : LSTMConfig) (p : Prims) (w : LSTMWeights)
    (inputs m_prev : Mat)
    (hW : w.W.cols = 4 * cfg.num_units)
    (hWi : w.W_i.cols = 4 * cfg.num_units) :
    (lstm_matrix cfg p w inputs m_prev).cols = 4 * cfg.num_units := by
  by_cases hbn : cfg.bn <;>
    simp [lstm_matrix, hbn, Mat.biasAdd, Mat.add, Mat.matmul, batch_norm,
      batch_normalization, hW, hWi]

/-- The new cell state has width `num_units`. -/
theorem new_c_cols (cfg : LSTMConfig) (p : Prims) (w : LSTMWeights)
    (inputs c_prev m_prev : Mat)
    (hW : w.W.cols = 4 * cfg.num_units)
    (hWi : w.W_i.cols = 4 * cfg.num_units) :
    (new_c cfg p w inputs c_prev m_prev).cols = cfg.num_units := by
  have hraw : (new_c_raw cfg p w inputs c_prev m_prev).cols = cfg.num_units := by
    have h4 := lstm_matrix_cols cfg p w inputs m_prev hW hWi
    by_cases hp : cfg.use_peepholes <;>
      simp [new_c_raw, hp, Mat.add, Mat.hmul, Mat.emap, Mat.addScalar,
        Mat.rowMul, split4, Mat.sliceCols, h4]
  cases hclip : cfg.cell_clip with
  | none => simpa [new_c, applyClip, hclip] using hraw
  | some K => simpa [new_c, applyClip, hclip, Mat.emap] using hraw

/-- The pre-projection output has width `num_units`. -/
theorem new_m_raw_cols (cfg : LSTMConfig) (p : Prims) (w : LSTMWeights)
    (inputs c_prev m_prev : Mat)
    (hW : w.W.cols = 4 * cfg.num_units)
    (hWi : w.W_i.cols = 4 * cfg.num_units) :
    (new_m_raw cfg p w inputs c_prev m_prev).cols = cfg.num_units := by
  have h4 := lstm_matrix_cols cfg p w inputs m_prev hW hWi
  by_cases hp : cfg.use_peepholes <;> by_cases hbn : cfg.bn <;>
    simp [new_m_raw, hp, hbn, Mat.hmul, Mat.emap, Mat.add, Mat.rowMul,
      split4, Mat.sliceCols, h4]

/-- C7: assuming the weight widths the variable store creates
(`W`/`W_i` of width `4*num_units`, `W_P` of width `num_proj`), the output of
a step has feature width `num_proj` when `num_proj` is set and `num_units`
otherwise, and the returned state pair `(c, h)` has widths
`(num_units, num_proj)` resp. `(num_units, num_units)`. -/
theorem lstm_step_widths (cfg : LSTMConfig) (p : Prims) (w : LSTMWeights)
    (inputs c_prev m_prev : Mat)
    (hW : w.W.cols = 4 * cfg.num_units)
    (hWi : w.W_i.cols = 4 * cfg.num_units) :
    (cfg.num_proj = none →
      (lstmStep cfg p w inputs c_prev m_prev).out.cols = cfg.num_units ∧
      (lstmStep cfg p w inputs c_prev m_prev).state_c.cols = cfg.num_units ∧
      (lstmStep cfg p w inputs c_prev m_prev).state_h.cols = cfg.num_units) ∧
    (∀ pr, cfg.num_proj = some pr → w.W_P.cols = pr →
      (lstmStep cfg p w inputs c_prev m_prev).out.cols = pr ∧
      (lstmStep cfg p w inputs c_prev m_prev).state_c.cols = cfg.num_units ∧
      (lstmStep cfg p w inputs c_prev m_prev).state_h.cols = pr) := by
  have hc := new_c_cols cfg p w inputs c_prev m_prev hW hWi
  have hm := new_m_raw_cols cfg p w inputs c_prev m_prev hW hWi
  constructor
  · intro hproj
    refine ⟨?_, hc, ?_⟩ <;> simp [lstmStep, new_m, hproj, hm]
  · intro pr hproj hWP
    refine ⟨?_, hc, ?_⟩ <;> simp [lstmStep, new_m, hproj, Mat.matmul, hWP]

/-- Witness for C7 with `num_proj = 3`, `num_units = 2`. -/
theorem lstm_step_widths_w :
    (lstmStep cfgProj p0 w0 x0 cp0 mp0).out.cols = 3 ∧
    (lstmStep cfgProj p0 w0 x0 cp0 mp0).state_c.cols = cfgProj.num_units ∧
    (lstmStep cfgProj p0 w0 x0 cp0 mp0).state_h.cols = 3 :=
  (lstm_step_widths cfgProj p0 w0 x0 cp0 mp0 rfl rfl).2 3 rfl rfl

/-- C8: with `use_peepholes=False`, `bn=False` (and the plain configuration:
no clip, no projection), all-zero input and previous state, and zero weight
matrix and bias, the four gate pre-activation slices are all zero, the
effective forget gate is `sigmoid(forget_bias)`, and the new cell state and
new output are zero (using `tanh 0 = 0` for the activation). -/
theorem lstm_zero_step (cfg : LSTMConfig) (p : Prims) (w : LSTMWeights)
    (inputs c_prev m_prev : Mat)
    (hpeep : cfg.use_peepholes = false) (hbn : cfg.bn = false)
    (hclip : cfg.cell_clip = none) (hproj : cfg.num_proj = none)
    (hact : p.act 0 = 0)
    (hWz : ∀ i j, w.W.entry i j = 0) (hBz : ∀ j, w.B.entry j = 0)
    (hxz : ∀ i j, inputs.entry i j = 0)
    (hcz : ∀ i j, c_prev.entry i j = 0)
    (hmz : ∀ i j, m_prev.entry i j = 0) (i j : ℕ) :
    (split4 (lstm_matrix cfg p w inputs m_prev)).1.entry i j = 0 ∧
    (split4 (lstm_matrix cfg p w inputs m_prev)).2.1.entry i j = 0 ∧
    (split4 (lstm_matrix cfg p w inputs m_prev)).2.2.1.entry i j = 0 ∧
    (split4 (lstm_matrix cfg p w inputs m_prev)).2.2.2.entry i j = 0 ∧
    p.sigmoid
        ((Mat.addScalar (split4 (lstm_matrix cfg p w inputs m_prev)).2.2.1
          cfg.forget_bias).entry i j)
      = p.sigmoid cfg.forget_bias ∧
    (lstmStep cfg p w inputs c_prev m_prev).state_c.entry i j = 0 ∧
    (lstmStep cfg p w inputs c_prev m_prev).out.entry i j = 0 := by
  have hLM : ∀ a b, (lstm_matrix cfg p w inputs m_prev).entry a b = 0 := by
    intro a b
    simp [lstm_matrix, hbn, Mat.biasAdd, Mat.matmul, Mat.concatCols,
      hxz, hmz, hWz, hBz]
  have hC : ∀ a b,
      (new_c cfg p w inputs c_prev m_prev).entry a b = 0 := by
    intro a b
    simp [new_c, applyClip, hclip, new_c_raw, hpeep, Mat.add, Mat.hmul,
      Mat.emap, Mat.addScalar, split4, Mat.sliceCols, hLM, hcz, hact]
  refine ⟨?_, ?_, ?_, ?_, ?_, hC i j, ?_⟩
  · simp [split4, Mat.sliceCols, hLM]
  · simp [split4, Mat.sliceCols, hLM]
  · simp [split4, Mat.sliceCols, hLM]
  · simp [split4, Mat.sliceCols, hLM]
  · simp [Mat.addScalar, split4, Mat.sliceCols, hLM]
  · simp [lstmStep, new_m, hproj, new_m_raw, hpeep, hbn, Mat.hmul, Mat.emap,
      split4, Mat.sliceCols, hLM, hC, hact]

/-- Witness for C8 at entry (0, 0) with zero fixtures and identity
activation (which fixes 0). -/
theorem lstm_zero_step_w :
    (split4 (lstm_matrix cfg0 pId wZ (matZ 1 2) (matZ 1 2))).1.entry 0 0 = 0 ∧
    (split4 (lstm_matrix cfg0 pId wZ (matZ 1 2) (matZ 1 2))).2.1.entry 0 0 = 0 ∧
    (split4 (lstm_matrix cfg0 pId wZ (matZ 1 2) (matZ 1 2))).2.2.1.entry 0 0 = 0 ∧
    (split4 (lstm_matrix cfg0 pId wZ (matZ 1 2) (matZ 1 2))).2.2.2.entry 0 0 = 0 ∧
    pId.sigmoid
        ((Mat.addScalar (split4 (lstm_matrix cfg0 pId wZ (matZ 1 2) (matZ 1 2))).2.2.1
          cfg0.forget_bias).entry 0 0)
      = pId.sigmoid cfg0.forget_bias ∧
    (lstmStep cfg0 pId wZ (matZ 1 2) (matZ 1 2) (matZ 1 2)).state_c.entry 0 0 = 0 ∧
    (lstmStep cfg0 pId wZ (matZ 1 2) (matZ 1 2) (matZ 1 2)).out.entry 0 0 = 0 :=
  lstm_zero_step cfg0 pId wZ (matZ 1 2) (matZ 1 2) (matZ 1 2)
    rfl rfl rfl rfl rfl
    (fun _ _ => rfl) (fun _ => rfl) (fun _ _ => rfl) (fun _ _ => rfl)
    (fun _ _ => rfl) 0 0

/-- C5: `__call__` fails if and only if the static feature width of the
input is unknown; in the failure case no variable has been created (the
creation trace is empty), and for any known width the call succeeds for
every configuration and state — no other validation is performed. -/
theorem lstm_call_error_iff (cfg : LSTMConfig) (p : Prims) (w : LSTMWeights)
    (inputs : InTensor) (c_prev m_prev : Mat) (scope_name : String) :
    ((∃ e, (lstmCall cfg p w inputs c_prev m_prev scope_name).2
        = Except.error e) ↔ inputs.staticLastDim = none) ∧
    (inputs.staticLastDim = none →
      (lstmCall cfg p w inputs c_prev m_prev scope_name).1 = []) ∧
    (∀ d, inputs.staticLastDim = some d →
      (lstmCall cfg p w inputs c_prev m_prev scope_name).2
        = Except.ok (lstmStep cfg p w inputs.mat c_prev m_prev)) := by
  refine ⟨⟨fun he => ?_, fun hn => ?_⟩, fun hn => ?_, fun d hd => ?_⟩
  · cases h2 : inputs.staticLastDim with
    | none => rfl
    | some d =>
        obtain ⟨e, he⟩ := he
        simp [lstmCall, h2] at he
  · exact ⟨"Could not infer input size from inputs.get_shape()[-1]",
      by simp [lstmCall, hn]⟩
  · simp [lstmCall, hn]
  · simp [lstmCall, hd]

/-- Witness for C5: a concrete input with unknown static width makes the
call fail. -/
theorem lstm_call_error_iff_w :
    ∃ e, (lstmCall cfg0 p0 w0 ⟨x0, none⟩ cp0 mp0 "LSTMCell").2
      = Except.error e :=
  (lstm_call_error_iff cfg0 p0 w0 ⟨x0, none⟩ cp0 mp0 "LSTMCell").1.mpr rfl

end TFLSTM
